import Mathlib

/-!
Verification of the perceive–reason–act pipeline of `agentic_agent.py`
(classes `VoiceAgent` and `AgenticTextAssistant`).

Text is modelled as `List Char`; Python's `re.findall` over the four
entity patterns is modelled by a small backtracking regular-expression
engine (`Re`, `mrun`, `findall`) whose patterns transcribe the regex
literals of `_extract_entities`.  Floating point arithmetic on the
confidence score is modelled over `ℚ` (the literals 0.7, 0.15, 0.1,
0.05, 1.0 are exact decimals).  The wall-clock timestamp stored in a
perception is outside the model.
-/

namespace Agent

/-- Text, as a list of characters (Python `str`). -/
abbrev Str := List Char

/-- Character data of a string literal. -/
def str (s : String) : Str := s.data

/-- Python `str.lower()` (ASCII). -/
def lowerS (s : Str) : Str := s.map Char.toLower

/-- `isPref n h` : `n` is a prefix of `h`. -/
def isPref : Str → Str → Bool
  | [], _ => true
  | _ :: _, [] => false
  | a :: as, b :: bs => a == b && isPref as bs

/-- `isInf n h` : Python `n in h` (substring containment). -/
def isInf (n : Str) : Str → Bool
  | [] => isPref n []
  | c :: cs => isPref n (c :: cs) || isInf n cs

/-- The ordered keyword table of `_extract_intent` (a Python dict keeps
insertion order). -/
def intent_patterns : List (Str × List Str) :=
  [ (str "create", [str "create", str "make", str "generate", str "write"]),
    (str "search", [str "search", str "find", str "look for", str "show me"]),
    (str "analyze", [str "analyze", str "explain", str "understand", str "what is"]),
    (str "calculate", [str "calculate", str "compute", str "how much", str "sum"]),
    (str "schedule", [str "schedule", str "plan", str "set reminder", str "meeting"]),
    (str "translate", [str "translate", str "say in", str "convert to"]),
    (str "summarize", [str "summarize", str "brief", str "tldr", str "overview"]) ]

/-- The `for intent, keywords in intent_patterns.items()` loop body. -/
def findIntent : List (Str × List Str) → Str → Str
  | [], _ => str "conversation"
  | (i, kws) :: rest, tl =>
    if kws.any (fun kw => isInf kw tl) then i else findIntent rest tl

/-- `VoiceAgent._extract_intent`. -/
def extract_intent (text : Str) : Str :=
  findIntent intent_patterns (lowerS text)

/-! ### Regular expressions

A pattern AST and a backtracking matcher.  `mrun fuel r s i` lists the
end positions of every match of `r` starting at position `i` of `s`, in
backtracking priority order (greedy repetition = more iterations first,
alternation = left branch first); the head is the match Python's engine
picks.  The fuel bounds the recursion depth; `mfuel` is always enough
because every repetition body consumes at least one character. -/

inductive Re where
  | cls (p : Char → Bool)
  | eps
  | seq (a b : Re)
  | alt (a b : Re)
  | star (r : Re)
  | wb

/-- Python `\w` (ASCII). -/
def isWordChar (c : Char) : Bool := c.isAlphanum || c == '_'

/-- Is the character at position `j` (if any) a word character? -/
def wordAt (s : Str) (j : Nat) : Bool :=
  match s.get? j with
  | some c => isWordChar c
  | none => false

/-- Python `\b` at position `i`. -/
def boundary (s : Str) (i : Nat) : Bool :=
  (match i with
   | 0 => false
   | j + 1 => wordAt s j) != wordAt s i

def mrun : Nat → Re → Str → Nat → List Nat
  | 0, _, _, _ => []
  | _ + 1, .cls p, s, i =>
    match s.get? i with
    | some c => if p c then [i + 1] else []
    | none => []
  | _ + 1, .eps, _, i => [i]
  | f + 1, .seq a b, s, i => (mrun f a s i).flatMap (fun j => mrun f b s j)
  | f + 1, .alt a b, s, i => mrun f a s i ++ mrun f b s i
  | f + 1, .star r, s, i =>
    ((mrun f r s i).flatMap (fun j => if i < j then mrun f (.star r) s j else [])) ++ [i]
  | _ + 1, .wb, s, i => if boundary s i then [i] else []

/-- Enough fuel for any of the entity patterns on `s`. -/
def mfuel (s : Str) : Nat := 2 * s.length + 64

/-- The substring `s[i:j]`. -/
def slice (s : Str) (i j : Nat) : Str := (s.drop i).take (j - i)

/-- The scanning loop of `re.findall`: leftmost match, then continue at
its end. -/
def faux : Nat → Re → Str → Nat → List Str
  | 0, _, _, _ => []
  | f + 1, r, s, i =>
    if i ≤ s.length then
      match (mrun (mfuel s) r s i).head? with
      | some j => slice s i j :: faux f r s (if i < j then j else i + 1)
      | none => faux f r s (i + 1)
    else []

/-- `re.findall(pattern, s)` for a groupless pattern. -/
def findall (r : Re) (s : Str) : List Str := faux (s.length + 2) r s 0

def chRe (c : Char) : Re := .cls (fun x => x == c)

def optRe (r : Re) : Re := .alt r .eps

def plusRe (r : Re) : Re := .seq r (.star r)

def digitRe : Re := .cls Char.isDigit

/-- `\d{1,2}` (greedy). -/
def d12 : Re := .seq digitRe (optRe digitRe)

/-- `r"\d+"`. -/
def numbersRe : Re := plusRe digitRe

/-- `r"\b\d{1,2}/\d{1,2}/\d{2,4}\b"` (`\d{2,4}` = `\d\d\d?\d?`). -/
def datesRe : Re :=
  .seq .wb (.seq d12 (.seq (chRe '/') (.seq d12 (.seq (chRe '/')
    (.seq digitRe (.seq digitRe (.seq (optRe digitRe) (.seq (optRe digitRe) .wb))))))))

/-- `(?:am|pm)?`. -/
def ampmRe : Re := optRe (.alt (.seq (chRe 'a') (chRe 'm')) (.seq (chRe 'p') (chRe 'm')))

/-- `r"\b\d{1,2}:\d{2}\s*(?:am|pm)?\b"`. -/
def timesRe : Re :=
  .seq .wb (.seq d12 (.seq (chRe ':') (.seq digitRe (.seq digitRe
    (.seq (.star (.cls Char.isWhitespace)) (.seq ampmRe .wb))))))

/-- `[A-Za-z0-9._%+-]`. -/
def localC (c : Char) : Bool :=
  c.isAlphanum || c == '.' || c == '_' || c == '%' || c == '+' || c == '-'

/-- `[A-Za-z0-9.-]`. -/
def domC (c : Char) : Bool := c.isAlphanum || c == '.' || c == '-'

/-- `[A-Z|a-z]` (the source class literally contains `|`). -/
def tldC (c : Char) : Bool :=
  ('A' ≤ c && c ≤ 'Z') || c == '|' || ('a' ≤ c && c ≤ 'z')

/-- `r"\b[A-Za-z0-9._%+-]+@[A-Za-z0-9.-]+\.[A-Z|a-z]{2,}\b"`. -/
def emailsRe : Re :=
  .seq .wb (.seq (plusRe (.cls localC)) (.seq (chRe '@') (.seq (plusRe (.cls domC))
    (.seq (chRe '.') (.seq (.cls tldC) (.seq (.cls tldC) (.seq (.star (.cls tldC)) .wb)))))))

/-- `VoiceAgent._extract_entities`: the four categories in dict order,
then the comprehension `{k: v for k, v in entities.items() if v}`. -/
def extract_entities (text : Str) : List (Str × List Str) :=
  let entities : List (Str × List Str) :=
    [ (str "numbers", findall numbersRe text),
      (str "dates", findall datesRe text),
      (str "times", findall timesRe (lowerS text)),
      (str "emails", findall emailsRe text) ]
  entities.filter (fun kv => !kv.2.isEmpty)

/-- The positive keyword list of `_analyze_sentiment`. -/
def positive : List Str :=
  [str "good", str "great", str "excellent", str "happy", str "love", str "thank"]

/-- The negative keyword list of `_analyze_sentiment`. -/
def negative : List Str :=
  [str "bad", str "terrible", str "sad", str "hate", str "angry", str "problem"]

/-- `VoiceAgent._analyze_sentiment`. -/
def analyze_sentiment (text : Str) : Str :=
  let text_lower := lowerS text
  let pos_count := positive.countP (fun word => isInf word text_lower)
  let neg_count := negative.countP (fun word => isInf word text_lower)
  if neg_count < pos_count then str "positive"
  else if pos_count < neg_count then str "negative"
  else str "neutral"

/-- A perception record (the wall-clock `timestamp` field is not
modelled). -/
structure Perception where
  text : Str
  intent : Str
  entities : List (Str × List Str)
  sentiment : Str
deriving DecidableEq, Repr

/-- `VoiceAgent.perceive`: build the perception and append it to the
memory. -/
def perceive (memory : List Perception) (text : Str) : Perception × List Perception :=
  let p : Perception :=
    { text := text
      intent := extract_intent text
      entities := extract_entities text
      sentiment := analyze_sentiment text }
  (p, memory ++ [p])

/-- `dict.get key default` on an association list. -/
def aget {α : Type} : List (Str × α) → Str → α → α
  | [], _, d => d
  | (k, v) :: rest, key, d => if k = key then v else aget rest key d

/-- `VoiceAgent._identify_goal`. -/
def identify_goal (intent : Str) : Str :=
  aget
    [ (str "create", str "Generate new content"),
      (str "search", str "Retrieve information"),
      (str "analyze", str "Understand and explain"),
      (str "calculate", str "Perform computation"),
      (str "schedule", str "Organize time-based tasks"),
      (str "translate", str "Convert between languages"),
      (str "summarize", str "Condense information") ]
    intent (str "Assist user")

/-- `VoiceAgent._check_prerequisites`. -/
def check_prerequisites (intent : Str) : List Str :=
  aget
    [ (str "search", [str "internet access", str "search tool"]),
      (str "calculate", [str "math processor"]),
      (str "translate", [str "translation model"]),
      (str "schedule", [str "calendar access"]) ]
    intent [str "language understanding"]

structure Plan where
  steps : List Str
  estimated_time : Str
deriving DecidableEq, Repr

/-- `VoiceAgent._create_plan` (the `entities` argument is unused by the
source too). -/
def create_plan (intent : Str) (_entities : List (Str × List Str)) : Plan :=
  aget
    [ (str "create",
        { steps := [str "understand_requirements", str "generate_content", str "validate_output"]
          estimated_time := str "10s" }),
      (str "analyze",
        { steps := [str "parse_input", str "analyze_components", str "synthesize_explanation"]
          estimated_time := str "5s" }),
      (str "calculate",
        { steps := [str "extract_numbers", str "determine_operation", str "compute_result"]
          estimated_time := str "2s" }) ]
    intent
    { steps := [str "understand_query", str "process_information", str "formulate_response"]
      estimated_time := str "3s" }

/-- Python `str.split()` (split on whitespace runs, dropping empties). -/
def splitWs (s : Str) : List Str :=
  (s.splitOnP (fun c => c.isWhitespace)).filter (fun w => !w.isEmpty)

/-- Python `min` on two rationals, written with an explicit test so that
it evaluates by kernel reduction (`rmin_eq_min` identifies it with
`min`). -/
def rmin (a b : ℚ) : ℚ := if a ≤ b then a else b

/-- `VoiceAgent._calculate_confidence` (floats modelled over `ℚ`). -/
def calculate_confidence (perception : Perception) : ℚ :=
  let base : ℚ := 7/10
  let base := if perception.entities.isEmpty then base else base + 15/100
  let base := if perception.sentiment ≠ str "neutral" then base + 1/10 else base
  let base := if 5 < (splitWs perception.text).length then base + 5/100 else base
  rmin base 1

structure Reasoning where
  goal : Str
  prerequisites : List Str
  plan : Plan
  confidence : ℚ
deriving DecidableEq, Repr

/-- `VoiceAgent.reason`. -/
def reason (perception : Perception) : Reasoning :=
  { goal := identify_goal perception.intent
    prerequisites := check_prerequisites perception.intent
    plan := create_plan perception.intent perception.entities
    confidence := calculate_confidence perception }

structure StepResult where
  step : Str
  status : Str
  output : Str
deriving DecidableEq, Repr

/-- `VoiceAgent._execute_step`. -/
def execute_step (stp : Str) : StepResult :=
  { step := stp, status := str "completed", output := str "Executed " ++ stp }

/-- `str(n)` for a natural number. -/
def natStr (n : Nat) : Str := (Nat.repr n).data

/-- `VoiceAgent._generate_response` (`memory` is `self.memory` at call
time). -/
def generate_response (memory : List Perception) (results : List StepResult)
    (reasoning : Reasoning) : Str :=
  let goal := reasoning.goal
  let conf := reasoning.confidence
  let pfx := if (8/10 : ℚ) < conf
    then str "I understand you want to"
    else str "I think you're asking me to"
  let response := pfx ++ str " " ++ lowerS goal ++ str ". "
  let response := if 1 < memory.length
    then response ++ str "Based on our conversation so far, "
    else response
  response ++ (str "I've analyzed your request and completed "
    ++ natStr results.length ++ str " reasoning steps.")

/-- `VoiceAgent.act` (`memory` is `self.memory` at call time). -/
def act (memory : List Perception) (reasoning : Reasoning) : Str :=
  let results := reasoning.plan.steps.map execute_step
  generate_response memory results reasoning

/-- The state of an `AgenticTextAssistant` (its `VoiceAgent`'s memory
plus the interaction counter). -/
structure AgentState where
  memory : List Perception
  interaction_count : Nat
deriving DecidableEq, Repr

structure ProcessResult where
  input_text : Str
  perception : Perception
  reasoning : Reasoning
  response_text : Str
deriving DecidableEq, Repr

/-- `AgenticTextAssistant.process`: perceive (which appends to memory),
reason, act, bump the counter. -/
def process (st : AgentState) (text : Str) : ProcessResult × AgentState :=
  let pm := perceive st.memory text
  let reasoning := reason pm.1
  let response_text := act pm.2 reasoning
  (⟨text, pm.1, reasoning, response_text⟩,
   { memory := pm.2, interaction_count := st.interaction_count + 1 })

/-- `dict.get` returning an `Option` (used only to state claims about
which categories a mapping contains). -/
def alookup {α : Type} : List (Str × α) → Str → Option α
  | [], _ => none
  | (k, v) :: rest, key => if k = key then some v else alookup rest key

end Agent

namespace Agent

/-! ### Basic lemmas about the string primitives -/

lemma isPref_iff {n h : Str} : isPref n h = true ↔ n <+: h := by
  induction n generalizing h with
  | nil => simp [isPref]
  | cons a as ih =>
    cases h with
    | nil => simp [isPref]
    | cons b bs =>
      simp [isPref, Bool.and_eq_true, beq_iff_eq, ih, List.cons_prefix_cons]

lemma isInf_iff {n h : Str} : isInf n h = true ↔ n <:+: h := by
  induction h with
  | nil =>
    cases n <;> simp [isInf, isPref]
  | cons c cs ih =>
    simp [isInf, Bool.or_eq_true, isPref_iff, ih, List.infix_cons_iff]

/-! ### The intent classifier -/

lemma findIntent_eq_find? (l : List (Str × List Str)) (tl : Str) :
    findIntent l tl =
      ((l.find? (fun kv => kv.2.any (fun kw => isInf kw tl))).map Prod.fst).getD
        (str "conversation") := by
  induction l with
  | nil => rfl
  | cons kv rest ih =>
    by_cases h : kv.2.any (fun kw => isInf kw tl)
    · simp [findIntent, List.find?_cons, h]
    · simp only [Bool.not_eq_true] at h
      simp [findIntent, List.find?_cons, h, ih]

lemma findIntent_mem (l : List (Str × List Str)) (tl : Str) :
    findIntent l tl ∈ l.map Prod.fst ++ [str "conversation"] := by
  induction l with
  | nil => simp [findIntent]
  | cons kv rest ih =>
    by_cases h : kv.2.any (fun kw => isInf kw tl)
    · simp [findIntent, h]
    · simp only [Bool.not_eq_true] at h
      simp only [findIntent, h]
      simp only [List.map_cons, List.cons_append, List.mem_cons]
      exact Or.inr ih

/-- Claim C1: for every input text, `_extract_intent` lower-cases the text,
scans the fixed ordered keyword table, and returns the first intent one of
whose keywords occurs as a substring of the lower-cased text, falling back
to `"conversation"`; in particular its result always belongs to the seven
table intents together with `"conversation"`. -/
theorem extract_intent_spec (text : Str) :
    extract_intent text ∈
      [str "create", str "search", str "analyze", str "calculate",
       str "schedule", str "translate", str "summarize", str "conversation"]
    ∧ extract_intent text =
      ((intent_patterns.find?
          (fun kv => kv.2.any (fun kw => isInf kw (lowerS text)))).map Prod.fst).getD
        (str "conversation") := by
  constructor
  · have h := findIntent_mem intent_patterns (lowerS text)
    simpa [intent_patterns] using h
  · exact findIntent_eq_find? intent_patterns (lowerS text)

/-! ### The confidence score -/

lemma rmin_eq_min (a b : ℚ) : rmin a b = min a b := (min_def a b).symm

lemma calc_conf_eq (p : Perception) :
    calculate_confidence p =
      min ((7/10 : ℚ) + (if p.entities = [] then 0 else 15/100)
        + (if p.sentiment = str "neutral" then 0 else 1/10)
        + (if 5 < (splitWs p.text).length then 5/100 else 0)) 1 := by
  simp only [calculate_confidence, rmin_eq_min, List.isEmpty_iff, ne_eq]
  split_ifs <;> norm_num

/-- Claim C2: the confidence equals 0.70, plus 0.15 if the entity mapping is
non-empty, plus 0.10 if the sentiment is not neutral, plus 0.05 if the text
has more than 5 whitespace-separated tokens, clamped to at most 1.0; hence
it always lies in the interval [0.70, 1.00]. -/
theorem calculate_confidence_spec (p : Perception) :
    calculate_confidence p =
      min ((7/10 : ℚ) + (if p.entities = [] then 0 else 15/100)
        + (if p.sentiment = str "neutral" then 0 else 1/10)
        + (if 5 < (splitWs p.text).length then 5/100 else 0)) 1
    ∧ (7/10 : ℚ) ≤ calculate_confidence p ∧ calculate_confidence p ≤ 1 := by
  refine ⟨calc_conf_eq p, ?_, ?_⟩
  · rw [calc_conf_eq]
    refine le_min ?_ (by norm_num)
    split_ifs <;> norm_num
  · rw [calc_conf_eq]
    exact min_le_right _ _

/-- Claim C7: the confidence is monotonically non-decreasing in each
perception signal independently: with the other fields fixed, replacing an
empty entity mapping by any mapping, a neutral sentiment by any sentiment,
or a text of at most 5 tokens by any text never decreases the score. -/
theorem calculate_confidence_monotone :
    (∀ (p : Perception) (es : List (Str × List Str)), p.entities = [] →
      calculate_confidence p ≤ calculate_confidence { p with entities := es })
    ∧ (∀ (p : Perception) (s : Str), p.sentiment = str "neutral" →
      calculate_confidence p ≤ calculate_confidence { p with sentiment := s })
    ∧ (∀ (p : Perception) (t : Str), (splitWs p.text).length ≤ 5 →
      calculate_confidence p ≤ calculate_confidence { p with text := t }) := by
  refine ⟨?_, ?_, ?_⟩ <;> intro p x h <;> rw [calc_conf_eq, calc_conf_eq] <;>
    refine min_le_min ?_ le_rfl <;> dsimp only
  · have h0 : (0 : ℚ) ≤ if x = [] then 0 else 15/100 := by split_ifs <;> norm_num
    rw [if_pos h]
    linarith
  · have h0 : (0 : ℚ) ≤ if x = str "neutral" then 0 else 1/10 := by
      split_ifs <;> norm_num
    rw [if_pos h]
    linarith
  · have h0 : (0 : ℚ) ≤ if 5 < (splitWs x).length then 5/100 else 0 := by
      split_ifs <;> norm_num
    have hnot : ¬ 5 < (splitWs p.text).length := by omega
    rw [if_neg hnot]
    linarith

/-- Witness for C7 at concrete perceptions. -/
theorem calculate_confidence_monotone_witness :
    calculate_confidence ⟨str "hi", str "conversation", [], str "neutral"⟩ ≤
      calculate_confidence ⟨str "hi", str "conversation",
        [(str "numbers", [str "1"])], str "neutral"⟩
    ∧ calculate_confidence ⟨str "hi", str "conversation", [], str "neutral"⟩ ≤
      calculate_confidence ⟨str "hi", str "conversation", [], str "positive"⟩
    ∧ calculate_confidence ⟨str "hi", str "conversation", [], str "neutral"⟩ ≤
      calculate_confidence ⟨str "this one has more than five tokens in it",
        str "conversation", [], str "neutral"⟩ :=
  ⟨calculate_confidence_monotone.1 ⟨str "hi", str "conversation", [], str "neutral"⟩
      [(str "numbers", [str "1"])] rfl,
   calculate_confidence_monotone.2.1 ⟨str "hi", str "conversation", [], str "neutral"⟩
      (str "positive") rfl,
   calculate_confidence_monotone.2.2 ⟨str "hi", str "conversation", [], str "neutral"⟩
      (str "this one has more than five tokens in it") (by decide)⟩

/-! ### Sentiment -/

/-- Claim C3: the sentiment label is determined by how many of the fixed
positive words and how many of the fixed negative words occur as
case-insensitive substrings of the text: "positive" exactly when the
positive count exceeds the negative one, "negative" exactly when the
negative count exceeds the positive one, "neutral" exactly on ties;
substring membership ignores token boundaries ("thankful" contains
"thank"), and "good bad" is a tie, hence neutral. -/
theorem analyze_sentiment_spec (text : Str) :
    (analyze_sentiment text = str "positive" ↔
      negative.countP (fun w => isInf w (lowerS text)) <
        positive.countP (fun w => isInf w (lowerS text)))
    ∧ (analyze_sentiment text = str "negative" ↔
      positive.countP (fun w => isInf w (lowerS text)) <
        negative.countP (fun w => isInf w (lowerS text)))
    ∧ (analyze_sentiment text = str "neutral" ↔
      positive.countP (fun w => isInf w (lowerS text)) =
        negative.countP (fun w => isInf w (lowerS text)))
    ∧ analyze_sentiment (str "I am thankful") = str "positive"
    ∧ analyze_sentiment (str "good bad") = str "neutral" := by
  have hne1 : str "positive" ≠ str "negative" := by decide
  have hne2 : str "positive" ≠ str "neutral" := by decide
  have hne3 : str "negative" ≠ str "neutral" := by decide
  refine ⟨?_, ?_, ?_, by decide, by decide⟩ <;> simp only [analyze_sentiment] <;>
    split_ifs with h1 h2
  · exact iff_of_true rfl h1
  · exact iff_of_false hne1.symm (by omega)
  · exact iff_of_false hne2.symm (by omega)
  · exact iff_of_false hne1 (by omega)
  · exact iff_of_true rfl h2
  · exact iff_of_false hne3.symm (by omega)
  · exact iff_of_false hne2 (by omega)
  · exact iff_of_false hne3 (by omega)
  · exact iff_of_true rfl (by omega)

end Agent

namespace Agent

/-! ### Concrete scenarios (claims C4 and C6) -/

/-- The C4 example utterance. -/
def ex4 : Str := str "Call me at 3:30pm on 4/5/2025, 42 times, email me at a@b.com"

/-- Counterexample to claim C4 as stated: the populated categories of the
example utterance do not all hold exactly one match — the `numbers`
category holds every digit run of the text, six in all. -/
theorem extract_entities_ex4_not_single :
    ¬ ∀ kv ∈ extract_entities ex4, kv.2.length = 1 := by decide

/-- Claim C4 (amended): the example utterance yields exactly the four
populated categories `numbers`, `dates`, `times`, `emails`; `dates`,
`times` and `emails` hold one match each, while `numbers` holds the six
digit runs 3, 30, 4, 5, 2025, 42. -/
theorem extract_entities_ex4_eval :
    extract_entities ex4 =
      [ (str "numbers", [str "3", str "30", str "4", str "5", str "2025", str "42"]),
        (str "dates", [str "4/5/2025"]),
        (str "times", [str "3:30pm"]),
        (str "emails", [str "a@b.com"]) ] := by decide

/-- The C6 example utterance. -/
def ex6 : Str := str "Can you create a report and email me at x@y.com by 5:00pm?"

/-- Claim C6: processing the example utterance as the first turn of a fresh
session yields intent "create", an entity mapping holding
emails = ["x@y.com"] and times = ["5:00pm"], sentiment "neutral",
confidence exactly 0.90, and a response beginning with the high-confidence
sentence "I understand you want to generate new content. ". -/
theorem process_ex6_scenario :
    (process ⟨[], 0⟩ ex6).1.perception.intent = str "create"
    ∧ alookup (process ⟨[], 0⟩ ex6).1.perception.entities (str "emails")
        = some [str "x@y.com"]
    ∧ alookup (process ⟨[], 0⟩ ex6).1.perception.entities (str "times")
        = some [str "5:00pm"]
    ∧ (process ⟨[], 0⟩ ex6).1.perception.sentiment = str "neutral"
    ∧ (process ⟨[], 0⟩ ex6).1.reasoning.confidence = 9/10
    ∧ isPref (str "I understand you want to generate new content. ")
        (process ⟨[], 0⟩ ex6).1.response_text = true := by
  have hconf : calculate_confidence (perceive [] ex6).1 = 9/10 := by
    rw [calc_conf_eq]
    rw [if_neg (by decide : ¬ (perceive [] ex6).1.entities = [])]
    rw [if_pos (by decide : (perceive [] ex6).1.sentiment = str "neutral")]
    rw [if_pos (by decide : 5 < (splitWs (perceive [] ex6).1.text).length)]
    rw [min_eq_left (by norm_num : (7/10 : ℚ) + 15/100 + 0 + 5/100 ≤ 1)]
    norm_num
  refine ⟨by decide, by decide, by decide, by decide, hconf, ?_⟩
  show isPref (str "I understand you want to generate new content. ")
    (act (perceive [] ex6).2 (reason (perceive [] ex6).1)) = true
  simp only [act, generate_response]
  rw [show (reason (perceive [] ex6).1).confidence
      = calculate_confidence (perceive [] ex6).1 from rfl, hconf]
  rw [if_pos (by norm_num : (8/10 : ℚ) < 9/10)]
  rw [if_neg (by decide : ¬ 1 < ((perceive [] ex6).2).length)]
  decide

end Agent

namespace Agent

/-! ### The reasoning plan and the synthesized response -/

/-- The eight possible goal strings (the seven table goals and the
default). -/
def goalsList : List Str :=
  [str "Generate new content", str "Retrieve information", str "Understand and explain",
   str "Perform computation", str "Organize time-based tasks",
   str "Convert between languages", str "Condense information", str "Assist user"]

lemma identify_goal_mem (i : Str) : identify_goal i ∈ goalsList := by
  simp only [identify_goal, aget]
  split_ifs <;> simp [goalsList]

lemma plan_steps_len (i : Str) (e : List (Str × List Str)) :
    (create_plan i e).steps.length = 3 := by
  simp only [create_plan, aget]
  split_ifs <;> rfl

/-- If the memory holds more than one perception, the generated response
contains the continuity phrase. -/
lemma phrase_in_generate (mem : List Perception) (results : List StepResult)
    (rsn : Reasoning) (h : 1 < mem.length) :
    isInf (str "Based on our conversation so far, ")
      (generate_response mem results rsn) = true := by
  rw [isInf_iff]
  simp only [generate_response, if_pos h]
  exact ⟨(if (8/10 : ℚ) < rsn.confidence then str "I understand you want to"
      else str "I think you're asking me to") ++ str " " ++ lowerS rsn.goal ++ str ". ",
    str "I've analyzed your request and completed " ++ natStr results.length
      ++ str " reasoning steps.", by simp [List.append_assoc]⟩

/-- If the memory holds at most one perception, the generated response
does not contain the continuity phrase (for the goals and step counts the
pipeline can produce). -/
lemma phrase_not_in_generate (mem : List Perception) (results : List StepResult)
    (rsn : Reasoning) (h : ¬ 1 < mem.length) (hg : rsn.goal ∈ goalsList)
    (hn : results.length = 3) :
    isInf (str "Based on our conversation so far, ")
      (generate_response mem results rsn) = false := by
  simp only [generate_response, if_neg h]
  rw [hn]
  simp only [goalsList, List.mem_cons, List.not_mem_nil, or_false] at hg
  by_cases hc : (8/10 : ℚ) < rsn.confidence
  · rw [if_pos hc]
    rcases hg with h' | h' | h' | h' | h' | h' | h' | h' <;> rw [h'] <;> decide
  · rw [if_neg hc]
    rcases hg with h' | h' | h' | h' | h' | h' | h' | h' <;> rw [h'] <;> decide

/-- Claim C9: every plan `_create_plan` can produce (the three bespoke
plans and the default plan) has exactly 3 steps, so the response always
ends with the fixed sentence about 3 reasoning steps. -/
theorem plan_three_steps (intent : Str) (entities : List (Str × List Str))
    (memory : List Perception) (p : Perception) :
    (create_plan intent entities).steps.length = 3
    ∧ str "I've analyzed your request and completed 3 reasoning steps." <:+
        act memory (reason p) := by
  refine ⟨plan_steps_len intent entities, ?_⟩
  simp only [act, generate_response, List.length_map]
  rw [show (reason p).plan = create_plan p.intent p.entities from rfl, plan_steps_len]
  rw [show str "I've analyzed your request and completed " ++ natStr 3
      ++ str " reasoning steps."
      = str "I've analyzed your request and completed 3 reasoning steps." from by decide]
  exact List.suffix_append _ _

/-- The response of a processed turn, written as a `generate_response`
call. -/
lemma process_response_eq (st : AgentState) (text : Str) :
    (process st text).1.response_text
      = generate_response (st.memory ++ [(perceive st.memory text).1])
          ((reason (perceive st.memory text).1).plan.steps.map execute_step)
          (reason (perceive st.memory text).1) := rfl

/-- Counterexample to claim C5 as stated: on the second turn of a session
the Interaction Store held exactly one prior perception — not more than
one — and yet the response carries the continuity phrase. -/
theorem response_continuity_counterexample :
    ((process (⟨[], 0⟩ : AgentState) (str "hello")).2).memory.length = 1
    ∧ isInf (str "Based on our conversation so far, ")
        (process ((process (⟨[], 0⟩ : AgentState) (str "hello")).2)
          (str "hello")).1.response_text = true := by
  refine ⟨by decide, ?_⟩
  rw [process_response_eq]
  exact phrase_in_generate _ _ _ (by decide)

/-- Claim C5 (amended): the response of a turn contains the continuity
phrase "Based on our conversation so far, " exactly when the Interaction
Store held at least one prior perception before the turn — that is, from
the second turn of a session onward; in particular the phrase is absent on
the first turn. -/
theorem response_continuity (st : AgentState) (text : Str) :
    isInf (str "Based on our conversation so far, ")
      (process st text).1.response_text = true
    ↔ 1 ≤ st.memory.length := by
  have hlen : (st.memory ++ [(perceive st.memory text).1]).length
      = st.memory.length + 1 := by simp
  constructor
  · intro h
    by_contra hn
    rw [process_response_eq] at h
    have h3 : ((reason (perceive st.memory text).1).plan.steps.map execute_step).length
        = 3 := by
      rw [List.length_map,
        show (reason (perceive st.memory text).1).plan
          = create_plan (perceive st.memory text).1.intent
              (perceive st.memory text).1.entities from rfl]
      exact plan_steps_len _ _
    have hno : ¬ 1 < (st.memory ++ [(perceive st.memory text).1]).length := by
      rw [hlen]
      omega
    rw [phrase_not_in_generate _ _ _ hno (identify_goal_mem _) h3] at h
    exact absurd h (by simp)
  · intro h
    rw [process_response_eq]
    exact phrase_in_generate _ _ _ (by rw [hlen]; omega)

end Agent

namespace Agent

/-! ### The entity-mapping invariant (claim C8) -/

/-- Claim C8: every category present in the mapping returned by
`_extract_entities` has a non-empty match list, and every key present is
one of `numbers`, `dates`, `times`, `emails`. -/
theorem extract_entities_invariant (text : Str) (kv : Str × List Str)
    (h : kv ∈ extract_entities text) :
    kv.2 ≠ [] ∧ kv.1 ∈ [str "numbers", str "dates", str "times", str "emails"] := by
  simp only [extract_entities, List.mem_filter] at h
  obtain ⟨hmem, hcond⟩ := h
  refine ⟨by simpa using hcond, ?_⟩
  simp only [List.mem_cons, List.not_mem_nil, or_false] at hmem
  rcases hmem with h' | h' | h' | h' <;> rw [h'] <;> simp

/-- Witness for C8 on the text "42". -/
theorem extract_entities_invariant_witness :
    ((str "numbers", [str "42"]) : Str × List Str).2 ≠ []
    ∧ ((str "numbers", [str "42"]) : Str × List Str).1
        ∈ [str "numbers", str "dates", str "times", str "emails"] :=
  extract_entities_invariant (str "42") (str "numbers", [str "42"]) (by decide)

/-! ### Claim C10: a date or time match forces a number match

A date or time can only match if the text contains a digit, and any digit
makes the `numbers` pattern match. -/

lemma char_isDigit_toNat (c : Char) :
    c.isDigit = (decide (48 ≤ c.toNat) && decide (c.toNat ≤ 57)) := by
  simp [Char.isDigit, Char.toNat, UInt32.le_def, BitVec.le_def, UInt32.toNat]

lemma char_toNat_ofNatAux (n : Nat) (h : n.isValidChar) :
    (Char.ofNatAux n h).toNat = n := by
  simp [Char.ofNatAux, Char.toNat, UInt32.toNat]

/-- Lower-casing a character does not change whether it is a digit. -/
lemma isDigit_toLower (c : Char) : (Char.toLower c).isDigit = c.isDigit := by
  simp only [Char.toLower]
  split_ifs with h
  · obtain ⟨h1, h2⟩ := h
    have hv : (c.toNat + 32).isValidChar := Or.inl (by omega)
    simp only [Char.ofNat]
    rw [dif_pos hv]
    rw [char_isDigit_toNat, char_isDigit_toNat c, char_toNat_ofNatAux]
    rw [decide_eq_false (by omega : ¬ (c.toNat + 32 ≤ 57)),
      decide_eq_false (by omega : ¬ (c.toNat ≤ 57))]
    simp
  · rfl

lemma mrun_cls_digit_nil {s : Str} (hnd : ∀ c ∈ s, c.isDigit = false) (f j : Nat) :
    mrun f (Re.cls Char.isDigit) s j = [] := by
  cases f with
  | zero => rfl
  | succ f =>
    simp only [mrun]
    cases hj : s.get? j with
    | none => rfl
    | some c => simp [hnd c (List.get?_mem hj)]

lemma mrun_seq_digit_nil {s : Str} (hnd : ∀ c ∈ s, c.isDigit = false) (q : Re)
    (f j : Nat) : mrun f (Re.seq (Re.cls Char.isDigit) q) s j = [] := by
  cases f with
  | zero => rfl
  | succ f => simp [mrun, mrun_cls_digit_nil hnd]

lemma mrun_seq2_digit_nil {s : Str} (hnd : ∀ c ∈ s, c.isDigit = false) (q r : Re)
    (f j : Nat) :
    mrun f (Re.seq (Re.seq (Re.cls Char.isDigit) q) r) s j = [] := by
  cases f with
  | zero => rfl
  | succ f => simp [mrun, mrun_seq_digit_nil hnd]

/-- A pattern of the shape `\b` followed by a leading `\d` cannot match in
a digit-free string. -/
lemma mrun_wb_digit_nil {s : Str} (hnd : ∀ c ∈ s, c.isDigit = false) (q r : Re)
    (f i : Nat) :
    mrun f (Re.seq Re.wb (Re.seq (Re.seq (Re.cls Char.isDigit) q) r)) s i = [] := by
  cases f with
  | zero => rfl
  | succ f => simp [mrun, mrun_seq2_digit_nil hnd]

lemma faux_nil {s : Str} {R : Re} (hR : ∀ f i, mrun f R s i = []) :
    ∀ (fuel i : Nat), faux fuel R s i = [] := by
  intro fuel
  induction fuel with
  | zero => intro i; rfl
  | succ fuel ih =>
    intro i
    simp only [faux]
    rw [hR]
    simp [ih]

lemma findall_dates_no_digit {t : Str} (hnd : ∀ c ∈ t, c.isDigit = false) :
    findall datesRe t = [] :=
  faux_nil (fun f i => mrun_wb_digit_nil hnd _ _ f i) _ 0

lemma findall_times_no_digit {t : Str} (hnd : ∀ c ∈ t, c.isDigit = false) :
    findall timesRe t = [] :=
  faux_nil (fun f i => mrun_wb_digit_nil hnd _ _ f i) _ 0

lemma exists_digit_of_dates {t : Str} (h : findall datesRe t ≠ []) :
    ∃ c ∈ t, c.isDigit = true := by
  by_contra hn
  push_neg at hn
  exact h (findall_dates_no_digit (fun c hc => by simpa using hn c hc))

lemma exists_digit_of_times {t : Str} (h : findall timesRe (lowerS t) ≠ []) :
    ∃ c ∈ t, c.isDigit = true := by
  by_contra hn
  push_neg at hn
  refine h (findall_times_no_digit (fun c hc => ?_))
  simp only [lowerS, List.mem_map] at hc
  obtain ⟨a, ha, rfl⟩ := hc
  rw [isDigit_toLower]
  simpa using hn a ha

lemma mrun_numbers_cons {s : Str} {i : Nat} {c : Char} (hc : s.get? i = some c)
    (hd : c.isDigit = true) (f : Nat) (hf : 2 ≤ f) :
    mrun f numbersRe s i ≠ [] := by
  obtain ⟨g, rfl⟩ : ∃ g, f = g + 2 := ⟨f - 2, by omega⟩
  show mrun (g + 2) (Re.seq (Re.cls Char.isDigit) (Re.star (Re.cls Char.isDigit))) s i ≠ []
  have hc' : s[i]? = some c := by rw [← List.get?_eq_getElem?]; exact hc
  simp [mrun, hc', hd]

lemma faux_numbers_ne {s : Str} :
    ∀ (fuel i k : Nat) (c : Char), i ≤ k → s.get? k = some c → c.isDigit = true →
      s.length + 1 - i ≤ fuel → faux fuel numbersRe s i ≠ [] := by
  intro fuel
  induction fuel with
  | zero =>
    intro i k c hik hk hd hf
    have hklen : k < s.length := (List.get?_eq_some.mp hk).1
    omega
  | succ fuel ih =>
    intro i k c hik hk hd hf
    have hklen : k < s.length := (List.get?_eq_some.mp hk).1
    simp only [faux]
    rw [if_pos (by omega : i ≤ s.length)]
    cases hh : (mrun (mfuel s) numbersRe s i).head? with
    | some j => simp
    | none =>
      have hnil : mrun (mfuel s) numbersRe s i = [] := by
        cases hmm : mrun (mfuel s) numbersRe s i with
        | nil => rfl
        | cons a l => rw [hmm] at hh; simp at hh
      have hik2 : i < k := by
        rcases Nat.lt_or_ge i k with h' | h'
        · exact h'
        · have hik3 : i = k := by omega
          subst hik3
          exact absurd hnil (mrun_numbers_cons hk hd _ (by simp only [mfuel]; omega))
      exact ih (i + 1) k c (by omega) hk hd (by omega)

lemma findall_numbers_ne {s : Str} {k : Nat} {c : Char} (hk : s.get? k = some c)
    (hd : c.isDigit = true) : findall numbersRe s ≠ [] :=
  faux_numbers_ne _ 0 k c (Nat.zero_le k) hk hd (by omega)

lemma alookup_filter {α : Type} (l : List (Str × α)) (p : Str × α → Bool) (k : Str)
    (h : alookup (l.filter p) k ≠ none) :
    ∃ v, (k, v) ∈ l ∧ p (k, v) = true := by
  induction l with
  | nil => exact absurd rfl h
  | cons a l ih =>
    obtain ⟨ak, av⟩ := a
    rw [List.filter_cons] at h
    by_cases hp : p (ak, av) = true
    · rw [if_pos hp] at h
      simp only [alookup] at h
      by_cases hk : ak = k
      · subst hk
        exact ⟨av, List.mem_cons_self _ _, hp⟩
      · rw [if_neg hk] at h
        obtain ⟨v, hv, hpv⟩ := ih h
        exact ⟨v, List.mem_cons_of_mem _ hv, hpv⟩
    · rw [if_neg hp] at h
      obtain ⟨v, hv, hpv⟩ := ih h
      exact ⟨v, List.mem_cons_of_mem _ hv, hpv⟩

lemma findall_dates_of_alookup {t : Str}
    (h : alookup (extract_entities t) (str "dates") ≠ none) :
    findall datesRe t ≠ [] := by
  simp only [extract_entities] at h
  obtain ⟨v, hmem, hp⟩ := alookup_filter _ _ _ h
  simp only [List.mem_cons, List.not_mem_nil, or_false, Prod.mk.injEq] at hmem
  rcases hmem with ⟨he, hv⟩ | ⟨he, hv⟩ | ⟨he, hv⟩ | ⟨he, hv⟩
  · exact absurd he (by decide)
  · subst hv; simpa using hp
  · exact absurd he (by decide)
  · exact absurd he (by decide)

lemma findall_times_of_alookup {t : Str}
    (h : alookup (extract_entities t) (str "times") ≠ none) :
    findall timesRe (lowerS t) ≠ [] := by
  simp only [extract_entities] at h
  obtain ⟨v, hmem, hp⟩ := alookup_filter _ _ _ h
  simp only [List.mem_cons, List.not_mem_nil, or_false, Prod.mk.injEq] at hmem
  rcases hmem with ⟨he, hv⟩ | ⟨he, hv⟩ | ⟨he, hv⟩ | ⟨he, hv⟩
  · exact absurd he (by decide)
  · exact absurd he (by decide)
  · subst hv; simpa using hp
  · exact absurd he (by decide)

lemma alookup_numbers_of_findall {t : Str} (h : findall numbersRe t ≠ []) :
    alookup (extract_entities t) (str "numbers") = some (findall numbersRe t) := by
  simp only [extract_entities]
  rw [List.filter_cons, if_pos (by simpa using h)]
  simp [alookup]

/-- Claim C10: whenever the entity mapping contains the `dates` category or
the `times` category, it also contains the `numbers` category — every date
or time match requires a digit in the text, and any digit makes the
`numbers` pattern match. -/
theorem dates_times_imply_numbers (text : Str)
    (h : alookup (extract_entities text) (str "dates") ≠ none
       ∨ alookup (extract_entities text) (str "times") ≠ none) :
    alookup (extract_entities text) (str "numbers") ≠ none := by
  have hdig : ∃ c ∈ text, c.isDigit = true := by
    rcases h with h | h
    · exact exists_digit_of_dates (findall_dates_of_alookup h)
    · exact exists_digit_of_times (findall_times_of_alookup h)
  obtain ⟨c, hc, hd⟩ := hdig
  obtain ⟨k, hk⟩ := List.mem_iff_get?.mp hc
  rw [alookup_numbers_of_findall (findall_numbers_ne hk hd)]
  simp

/-- Witness for C10 on a text containing a date. -/
theorem dates_times_imply_numbers_witness :
    alookup (extract_entities (str "on 4/5/2025")) (str "numbers") ≠ none :=
  dates_times_imply_numbers (str "on 4/5/2025") (Or.inl (by decide))

end Agent
